import Mathlib

/-!
Verification development for the esthetic-dashboard import/normalization
pipeline and dashboard aggregator.

The definitions below are a shallow embedding of the TypeScript source:

* JS numbers are modelled as `ℚ`; the JS value `NaN` (and `±Infinity`)
  is modelled by `Option ℚ` with `none` for the non-finite outcomes.
* Timestamps are milliseconds since the Unix epoch, modelled as `ℤ`.
* The machine's local timezone is modelled by a constant offset
  `tz : ℤ` in milliseconds, with local time = UTC time + `tz`
  (DST transitions are not modelled; the offset is held fixed).
* `Int` division `/` in this file is Euclidean division, which for the
  positive divisors used here coincides with the floor division that
  JavaScript date arithmetic performs.
* Spreadsheet cells are `Cell`: a string, a finite number, or a Date
  object (the spreadsheet reader is configured with cellDates: true);
  a missing column lookup yields `none`, modelling `undefined`.
-/

/-- JS `Math.round`: round half up, `⌊x + 1/2⌋`. -/
def jsRound (q : ℚ) : ℤ := ⌊q + 1/2⌋

/-- JS `ToInteger` coercion used by the `Date` constructor: truncate toward zero. -/
def jsTrunc (q : ℚ) : ℤ := if 0 ≤ q then ⌊q⌋ else -⌊-q⌋

/-- Numeric value of a list of decimal digit characters. -/
def digitsVal (l : List Char) : ℕ := l.foldl (fun a c => 10 * a + (c.toNat - 48)) 0

/-- Whitespace test used by JS string-to-number trimming. -/
def isWS (c : Char) : Bool := c = ' ' || c = '\t' || c = '\n' || c = '\r'

/-- JS `parseFloat`: skip leading whitespace, optional sign, then the longest
prefix of the form `digits[.digits]`; `none` models a `NaN` result.
(The exponent form never occurs in this pipeline: the only strings reaching
`parseFloat` were first stripped to the characters `[0-9.-]`.) -/
def jsParseFloat (s : String) : Option ℚ :=
  let cs := s.toList.dropWhile isWS
  let sgn : ℚ × List Char :=
    match cs with
    | '-' :: t => (-1, t)
    | '+' :: t => (1, t)
    | _ => (1, cs)
  let ip := sgn.2.takeWhile Char.isDigit
  let r1 := sgn.2.dropWhile Char.isDigit
  let fp : List Char :=
    match r1 with
    | '.' :: t => t.takeWhile Char.isDigit
    | _ => []
  if ip = [] ∧ fp = [] then none
  else some (sgn.1 * ((digitsVal ip : ℚ) + (digitsVal fp : ℚ) / (10 : ℚ) ^ fp.length))

/-- JS `parseInt` (radix 10 inputs): skip leading whitespace, optional sign,
then the longest prefix of digits; `none` models `NaN`.
(Hex prefixes never occur in this pipeline.) -/
def jsParseInt (s : String) : Option ℤ :=
  let cs := s.toList.dropWhile isWS
  let sgn : ℤ × List Char :=
    match cs with
    | '-' :: t => (-1, t)
    | '+' :: t => (1, t)
    | _ => (1, cs)
  let ds := sgn.2.takeWhile Char.isDigit
  if ds = [] then none else some (sgn.1 * (digitsVal ds : ℤ))

/-- JS `Number(string)`: trims whitespace on both ends, accepts the empty
string as `0`, and requires the whole remaining string to be a signed decimal
numeral; `none` models `NaN`. (Hex/exponent forms never occur here.) -/
def jsNumber (s : String) : Option ℚ :=
  let cs := (((s.toList.dropWhile isWS).reverse).dropWhile isWS).reverse
  if cs = [] then some 0
  else
    let sgn : ℚ × List Char :=
      match cs with
      | '-' :: t => (-1, t)
      | '+' :: t => (1, t)
      | _ => (1, cs)
    let ip := sgn.2.takeWhile Char.isDigit
    let r1 := sgn.2.dropWhile Char.isDigit
    let frest : List Char × List Char :=
      match r1 with
      | '.' :: t => (t.takeWhile Char.isDigit, t.dropWhile Char.isDigit)
      | _ => ([], r1)
    if frest.2 ≠ [] then none
    else if ip = [] ∧ frest.1 = [] then none
    else some (sgn.1 * ((digitsVal ip : ℚ) + (digitsVal frest.1 : ℚ) / (10 : ℚ) ^ frest.1.length))

/-- Smallest exponent `k` with `den ∣ 10 ^ k`, searched up to 40; every
denominator produced by the parsers above is 10-smooth, so the search
succeeds on all values this pipeline creates. -/
def decExp (den : ℕ) : Option ℕ := (List.range 40).find? (fun k => 10 ^ k % den == 0)

/-- Digits of `n` with a decimal point `k` places from the right. -/
def decimalDigits (n : ℕ) (k : ℕ) : String :=
  let ds := (toString n).toList
  let ds := if ds.length ≤ k then List.replicate (k + 1 - ds.length) '0' ++ ds else ds
  let i := ds.length - k
  String.mk (ds.take i) ++ (if k = 0 then "" else "." ++ String.mk (ds.drop i))

/-- JS number-to-string for the finite-decimal rationals this pipeline
produces (JS prints binary floats in their shortest decimal form, which for
our exact-decimal model is the exact decimal expansion; the exponential
forms used for extreme magnitudes are not modelled). -/
def jsNumToString (q : ℚ) : String :=
  match decExp q.den with
  | some k =>
      (if q.num < 0 then "-" else "") ++ decimalDigits (q.num.natAbs * (10 ^ k / q.den)) k
  | none => toString q

/-- Days from the civil epoch 1970-01-01 for a proleptic Gregorian date
(Howard Hinnant's days_from_civil, with floor division throughout). -/
def daysFromCivil (y0 m d : ℤ) : ℤ :=
  let y := if m ≤ 2 then y0 - 1 else y0
  let era := y / 400
  let yoe := y - era * 400
  let doy := (153 * (m + (if 2 < m then -3 else 9)) + 2) / 5 + d - 1
  let doe := yoe * 365 + yoe / 4 - yoe / 100 + doy
  era * 146097 + doe - 719468

/-- Civil date (year, month, day) from days since 1970-01-01
(Howard Hinnant's civil_from_days, with floor division throughout). -/
def civilFromDays (z0 : ℤ) : ℤ × ℤ × ℤ :=
  let z := z0 + 719468
  let era := z / 146097
  let doe := z - era * 146097
  let yoe := (doe - doe / 1460 + doe / 36524 - doe / 146096) / 365
  let y := yoe + era * 400
  let doy := doe - (365 * yoe + yoe / 4 - yoe / 100)
  let mp := (5 * doy + 2) / 153
  let d := doy - (153 * mp + 2) / 5 + 1
  let m := if mp < 10 then mp + 3 else mp - 9
  (if m ≤ 2 then y + 1 else y, m, d)

/-- Two-digit zero padding, as in `String(x).padStart(2, '0')`. -/
def pad2 (n : ℤ) : String := if n < 10 then "0" ++ toString n else toString n

/-- The canonical `YYYY-MM-DD` rendering of a civil date. -/
def formatYMD (y m d : ℤ) : String := toString y ++ "-" ++ pad2 m ++ "-" ++ pad2 d

/-- `YYYY-MM-DD` rendering of a day number (days since 1970-01-01). -/
def formatDaysLocal (z : ℤ) : String :=
  let c := civilFromDays z
  formatYMD c.1 c.2.1 c.2.2

/-- Model of `dateObj.toLocaleDateString("en-CA")`: the local calendar day of
a UTC timestamp `ms`, for local offset `tz` (local = UTC + tz), rendered as
`YYYY-MM-DD`. -/
def localDayString (tz ms : ℤ) : String := formatDaysLocal ((ms + tz) / 86400000)

/-- Model of `new Date().toLocaleDateString("en-CA")`: the current local day,
where `now` is the current UTC timestamp in ms. -/
def localToday (tz now : ℤ) : String := localDayString tz now

example : formatDaysLocal 0 = "1970-01-01" := by decide
example : formatDaysLocal 1 = "1970-01-02" := by decide
example : daysFromCivil 2024 1 7 = 19729 := by decide
example : jsParseFloat "5.00" = some 5 := by with_unfolding_all decide
example : jsParseInt "-3" = some (-3) := by decide
example : jsNumber "07" = some 7 := by with_unfolding_all decide
example : jsNumToString (123/10 : ℚ) = "12.3" := by with_unfolding_all decide

/-- A spreadsheet cell value as produced by sheet_to_json with
cellDates: true: a string, a finite number, or a Date object (carried as
its UTC timestamp in ms). -/
inductive Cell where
  | str (s : String)
  | num (q : ℚ)
  | date (ms : ℤ)
deriving DecidableEq

/-- A raw row object: association of column names to cell values. -/
def Row := List (String × Cell)

/-- JS property lookup `item[col]`: `none` models `undefined`. -/
def rowLookup (item : Row) (col : String) : Option Cell :=
  (List.find? (fun p => p.1 == col) item).map (fun p => p.2)

/-- Model of the string a JS Date object coerces to (a textual form such as
Sun Jan 07 2024 ...; what matters downstream is that it never begins with a
digit, sign or dot, so numeric parses of it are NaN). -/
def dateCellStr (ms : ℤ) : String := "Date " ++ toString ms

/-- JS `String(x)` for a cell-or-undefined value. -/
def cellToString : Option Cell → String
  | none => "undefined"
  | some (.str s) => s
  | some (.num q) => jsNumToString q
  | some (.date ms) => dateCellStr ms

/-- JS `String(x || dflt)`: the default replaces the falsy values
`undefined`, the empty string, and `0`. -/
def jsStringOrDefault (dflt : String) : Option Cell → String
  | none => dflt
  | some (.str s) => if s = "" then dflt else s
  | some (.num q) => if q = 0 then dflt else jsNumToString q
  | some (.date ms) => dateCellStr ms

/-- The regex strip `val.replace(/[^0-9.-]+/g, "")`. -/
def stripCurrency (s : String) : String :=
  String.mk (s.toList.filter (fun c => c.isDigit || c == '.' || c == '-'))

/-- The `cleanAmount` computation of finalizeProcess (SyncView.tsx):
strings are stripped of currency characters then parsed with parseFloat;
numbers go through `parseFloat(rawAmount || 0)`, which is the identity on
finite numbers and maps a missing cell to 0; a Date cell stringifies to a
non-numeric form, hence NaN (`none`). -/
def cleanAmountOf : Option Cell → Option ℚ
  | some (.str s) => jsParseFloat (stripCurrency s)
  | some (.num q) => some q
  | some (.date _) => none
  | none => some 0

/-- The record amount: `isNaN(cleanAmount) ? 0 : cleanAmount`. -/
def amountOf (cell : Option Cell) : ℚ := (cleanAmountOf cell).getD 0

/-- The record quantity: `parseInt(item[mapping.quantity]) || 1`.
`parseInt` first coerces its argument to a string; the `|| 1` catches the
falsy results NaN and 0 but lets any nonzero integer through. -/
def quantityOf (cell : Option Cell) : ℤ :=
  match jsParseInt (cellToString cell) with
  | some k => if k = 0 then 1 else k
  | none => 1

/-- The parseDate helper of finalizeProcess (SyncView.tsx).

`dparse` is an oracle for `new Date(string)` (the JS date-string parser,
external to this pipeline): it returns the parsed UTC timestamp in ms, or
`none` for an Invalid Date. `tz` is the local offset in ms, `now` the
current UTC timestamp in ms.

Branches, in source order: a falsy value (`undefined`, empty string, the
number 0) yields the current local day; a Date cell is formatted directly;
a number is an Excel serial date only when strictly above 25569 and is
otherwise rejected in favour of the current local day; a string is given
to the date parser, falling back to the current local day when invalid.
All successful branches format with toLocaleDateString("en-CA"), i.e. as
the local `YYYY-MM-DD` day. -/
def parseDate (dparse : String → Option ℤ) (tz now : ℤ) : Option Cell → String
  | none => localToday tz now
  | some (.date ms) => localDayString tz ms
  | some (.num q) =>
      if q = 0 then localToday tz now
      else if 25569 < q then
        localDayString tz (jsRound ((q - 25569) * 86400 * 1000))
      else localToday tz now
  | some (.str s) =>
      if s = "" then localToday tz now
      else
        match dparse s with
        | some ms => localDayString tz ms
        | none => localToday tz now

/-- The target-field column mapping resolved by the AI call or by the
manual-mapping modal (unset selections are the empty string). -/
structure Mapping where
  date : String
  product : String
  amount : String
  category : String
  quantity : String
deriving DecidableEq

/-- A normalized sale record (types.ts SaleRecord; the optional
customerZip is never produced by this pipeline and is omitted). -/
structure SaleRecord where
  id : String
  date : String
  product : String
  category : String
  amount : ℚ
  quantity : ℤ
deriving DecidableEq

/-- One row of the `json.map((item, idx) => ...)` body of finalizeProcess
(SyncView.tsx). `now` doubles as the `Date.now()` stamp in the id. -/
def mkRecord (dparse : String → Option ℤ) (tz now : ℤ) (mp : Mapping)
    (fileName : String) (idx : ℕ) (item : Row) : SaleRecord :=
  { id := fileName ++ "-" ++ toString idx ++ "-" ++ toString now
    date := parseDate dparse tz now (rowLookup item mp.date)
    product := jsStringOrDefault "Unknown" (rowLookup item mp.product)
    category := jsStringOrDefault "General" (rowLookup item mp.category)
    amount := amountOf (rowLookup item mp.amount)
    quantity := quantityOf (rowLookup item mp.quantity) }

/-- The row-acceptance filter of finalizeProcess:
`s.amount > 0 || (s.product !== 'Unknown' && s.product !== '')`. -/
def retain (s : SaleRecord) : Bool :=
  decide (0 < s.amount) || (decide (s.product ≠ "Unknown") && decide (s.product ≠ ""))

/-- The `newSales` batch of finalizeProcess: map each row through the
normalizer, then keep only the retained records. -/
def finalizeRecords (dparse : String → Option ℤ) (tz now : ℤ) (mp : Mapping)
    (fileName : String) (rows : List Row) : List SaleRecord :=
  ((rows.enum).map (fun p => mkRecord dparse tz now mp fileName p.1 p.2)).filter retain

/-- The ledger (types.ts MasterRecord), restricted to the fields this
pipeline reads or writes; `id`/`name` and the insight cache are copied
verbatim by the object spread in updateMaster and are omitted. A missing
syncedFiles array behaves as the empty list. -/
structure Ledger where
  data : List SaleRecord
  totalSales : ℕ
  totalRevenue : ℚ
  syncedFiles : List String
  mappingSchema : Option Mapping
  lastUpdated : ℤ

/-- updateMaster (App.tsx): concatenate the new sales, recompute both
counters from the concatenated data, record the file name if new, replace
the mapping schema when one is supplied (`schema || master.mappingSchema`),
and stamp the mutation time. -/
def updateMaster (m : Ledger) (newSales : List SaleRecord)
    (schema : Option Mapping) (fileName : Option String) (now : ℤ) : Ledger :=
  let updatedData := m.data ++ newSales
  let updatedSyncedFiles :=
    match fileName with
    | some fn => if fn ∈ m.syncedFiles then m.syncedFiles else m.syncedFiles ++ [fn]
    | none => m.syncedFiles
  { data := updatedData
    lastUpdated := now
    totalSales := updatedData.length
    totalRevenue := updatedData.foldl (fun acc s => acc + s.amount) 0
    mappingSchema := match schema with | some sc => some sc | none => m.mappingSchema
    syncedFiles := updatedSyncedFiles }

/-- finalizeProcess (SyncView.tsx) from the normalized batch onward: an
empty batch throws No data found before onSync, leaving the ledger as it
was; otherwise onSync (updateMaster) appends and the added count is
surfaced. Result: the ledger after the call and the number of records
added. -/
def finalizeProcess (dparse : String → Option ℤ) (tz now : ℤ) (mp : Mapping)
    (fileName : String) (rows : List Row) (m : Ledger) : Ledger × ℕ :=
  let newSales := finalizeRecords dparse tz now mp fileName rows
  if newSales.length = 0 then (m, 0)
  else (updateMaster m newSales (some mp) (some fileName) now, newSales.length)

/-- processData (SyncView.tsx): the duplicate-file check runs first and
throws before the workbook is even parsed; an empty sheet throws next;
then the cached mapping schema, else the AI suggestion (`ai`, an oracle
for the external call, `none` when it fails or is absent), is validated —
a mapping lacking date or product diverts to the manual-mapping modal
(no ledger mutation yet, modelled as zero records added); otherwise the
batch proceeds to finalizeProcess. -/
def processData (dparse : String → Option ℤ) (tz now : ℤ) (ai : Option Mapping)
    (m : Ledger) (fileName : String) (rows : List Row) : Ledger × ℕ :=
  if fileName ∈ m.syncedFiles then (m, 0)
  else if rows.length = 0 then (m, 0)
  else
    let mapping := match m.mappingSchema with | some ms => some ms | none => ai
    match mapping with
    | some mp =>
        if mp.date = "" ∨ mp.product = "" then (m, 0)
        else finalizeProcess dparse tz now mp fileName rows m
    | none => (m, 0)

example :
    quantityOf (some (.str "-3")) = -3 := by decide
example :
    quantityOf none = 1 := by decide
example :
    amountOf (some (.str "$5.00")) = 5 := by with_unfolding_all decide
example :
    jsStringOrDefault "Unknown" (some (.str "")) = "Unknown" := by decide

/-- Rounding an integer-valued rational is the identity. -/
theorem jsRound_intCast (n : ℤ) : jsRound (n : ℚ) = n := by
  unfold jsRound
  rw [Int.floor_eq_iff]
  constructor <;> norm_num

/-- C3: a numeric date cell is taken as a spreadsheet serial date exactly
when it is strictly greater than 25569; 25569 itself falls back to the
current local day, and 25570 renders as 1970-01-01 or 1970-01-02 in local
time, for any local offset of magnitude below one day. -/
theorem serial_date_boundary (dparse : String → Option ℤ) (tz now : ℤ) (v : ℚ)
    (hlo : -86400000 < tz) (hhi : tz < 86400000) :
    (v ≤ 25569 → parseDate dparse tz now (some (.num v)) = localToday tz now) ∧
    (25569 < v → parseDate dparse tz now (some (.num v)) =
      localDayString tz (jsRound ((v - 25569) * 86400 * 1000))) ∧
    parseDate dparse tz now (some (.num 25569)) = localToday tz now ∧
    (parseDate dparse tz now (some (.num 25570)) = "1970-01-01" ∨
     parseDate dparse tz now (some (.num 25570)) = "1970-01-02") := by
  have hser : ∀ w : ℚ, 25569 < w → parseDate dparse tz now (some (.num w)) =
      localDayString tz (jsRound ((w - 25569) * 86400 * 1000)) := by
    intro w hw
    have h0 : w ≠ 0 := by intro h; rw [h] at hw; norm_num at hw
    simp only [parseDate]
    rw [if_neg h0, if_pos hw]
  refine ⟨?_, hser v, ?_, ?_⟩
  · intro hv
    simp only [parseDate]
    by_cases h0 : v = 0
    · rw [if_pos h0]
    · rw [if_neg h0, if_neg (not_lt.mpr hv)]
  · simp only [parseDate]
    norm_num
  · have h1 : parseDate dparse tz now (some (.num 25570)) = localDayString tz 86400000 := by
      rw [hser 25570 (by norm_num)]
      congr 1
      have h2 : ((25570 : ℚ) - 25569) * 86400 * 1000 = ((86400000 : ℤ) : ℚ) := by norm_num
      rw [h2, jsRound_intCast]
    rw [h1]
    unfold localDayString
    rcases le_or_lt 0 tz with htz | htz
    · right
      have hdiv : (86400000 + tz) / 86400000 = 1 := by omega
      rw [hdiv]
      decide
    · left
      have hdiv : (86400000 + tz) / 86400000 = 0 := by omega
      rw [hdiv]
      decide

/-- Witness for serial_date_boundary: offset 0, the serial 25570 lands on
1970-01-01 or 1970-01-02, and the serial 5 (a misrouted small number)
falls back to the current local day. -/
theorem serial_date_boundary_witness :
    (-86400000 : ℤ) < 0 ∧ (0 : ℤ) < 86400000 ∧
    (parseDate (fun _ => none) 0 0 (some (.num 25570)) = "1970-01-01" ∨
     parseDate (fun _ => none) 0 0 (some (.num 25570)) = "1970-01-02") ∧
    parseDate (fun _ => none) 0 0 (some (.num 5)) = localToday 0 0 :=
  ⟨by decide, by decide,
    (serial_date_boundary (fun _ => none) 0 0 25570 (by decide) (by decide)).2.2.2,
    (serial_date_boundary (fun _ => none) 0 0 5 (by decide) (by decide)).1 (by norm_num)⟩

/-- Column mapping used by the concrete retention examples. -/
def mpDemo : Mapping := ⟨"D", "P", "A", "C", "Q"⟩

/-- A row with amount 0 and product Unknown (date column left absent so
the record date falls back to the ingestion day). -/
def rowUnknownZero : Row :=
  [("P", Cell.str "Unknown"), ("A", Cell.num 0), ("C", Cell.str ""), ("Q", Cell.num 1)]

/-- A row with amount 0 and product Widget. -/
def rowWidgetZero : Row :=
  [("P", Cell.str "Widget"), ("A", Cell.num 0), ("C", Cell.str ""), ("Q", Cell.num 1)]

/-- C1: a normalized record survives the batch filter exactly when its
parsed amount is strictly positive or its product name is neither empty
nor Unknown; concretely, an amount-0 Unknown row is dropped and an
amount-0 Widget row is kept. -/
theorem retention_rule (dparse : String → Option ℤ) (tz now : ℤ) (mp : Mapping)
    (fileName : String) (rows : List Row) (r : SaleRecord) :
    (r ∈ finalizeRecords dparse tz now mp fileName rows ↔
       r ∈ (rows.enum).map (fun p => mkRecord dparse tz now mp fileName p.1 p.2) ∧
       (0 < r.amount ∨ (r.product ≠ "Unknown" ∧ r.product ≠ ""))) ∧
    finalizeRecords dparse 0 0 mpDemo "f" [rowUnknownZero] = [] ∧
    (finalizeRecords dparse 0 0 mpDemo "f" [rowWidgetZero]).map
      (fun s => (s.product, s.amount)) = [("Widget", 0)] := by
  refine ⟨?_, rfl, rfl⟩
  unfold finalizeRecords
  rw [List.mem_filter]
  constructor
  · intro h
    exact ⟨h.1, by simpa [retain] using h.2⟩
  · intro h
    exact ⟨h.1, by simpa [retain] using h.2⟩

/-- C2: an import whose file name is already among the synced files is
rejected up front: whatever the rows, the date parser and the AI mapping
oracle, the ledger is returned unchanged in every field and zero records
are added. -/
theorem duplicate_file_rejected (dparse : String → Option ℤ) (tz now : ℤ)
    (ai : Option Mapping) (m : Ledger) (fileName : String) (rows : List Row)
    (h : fileName ∈ m.syncedFiles) :
    processData dparse tz now ai m fileName rows = (m, 0) := by
  unfold processData
  rw [if_pos h]

/-- A ledger that has already ingested report.xlsx. -/
def demoLedger : Ledger :=
  { data := [], totalSales := 0, totalRevenue := 0, syncedFiles := ["report.xlsx"],
    mappingSchema := none, lastUpdated := 0 }

/-- Witness for duplicate_file_rejected: re-importing report.xlsx with a
nonempty sheet leaves the ledger untouched. -/
theorem duplicate_file_rejected_witness :
    "report.xlsx" ∈ demoLedger.syncedFiles ∧
    processData (fun _ => none) 0 0 none demoLedger "report.xlsx"
      [[("Name", Cell.str "Widget")]] = (demoLedger, 0) :=
  ⟨by decide,
    duplicate_file_rejected (fun _ => none) 0 0 none demoLedger "report.xlsx"
      [[("Name", Cell.str "Widget")]] (by decide)⟩

/-- Folding amounts from an accumulator equals the accumulator plus the
sum of the mapped amounts. -/
theorem foldl_amount_eq_sum (l : List SaleRecord) (a : ℚ) :
    l.foldl (fun acc s => acc + s.amount) a = a + (l.map (fun s => s.amount)).sum := by
  induction l generalizing a with
  | nil => simp
  | cons x xs ih => simp [ih, add_assoc]

/-- C8: after every append the ledger's data is the concatenation and both
derived counters are recomputed over the whole resulting data — totalSales
is its length and totalRevenue the sum of its amounts — with no assumption
that the incoming counters were consistent. -/
theorem append_recomputes_counters (m : Ledger) (newSales : List SaleRecord)
    (schema : Option Mapping) (fileName : Option String) (now : ℤ) :
    (updateMaster m newSales schema fileName now).data = m.data ++ newSales ∧
    (updateMaster m newSales schema fileName now).totalSales =
      (updateMaster m newSales schema fileName now).data.length ∧
    (updateMaster m newSales schema fileName now).totalRevenue =
      ((updateMaster m newSales schema fileName now).data.map (fun s => s.amount)).sum := by
  refine ⟨rfl, rfl, ?_⟩
  show (m.data ++ newSales).foldl (fun acc s => acc + s.amount) 0 =
    ((m.data ++ newSales).map (fun s => s.amount)).sum
  rw [foldl_amount_eq_sum]
  simp

/-- The manual mapping state as confirmed by Sync Now with the date and
amount selections still on Choose Column (empty) and only product chosen. -/
def manualMappingUnset : Mapping := ⟨"", "Name", "", "", ""⟩

/-- The single pending row of the uploaded sheet. -/
def pendingRow : Row := [("Name", Cell.str "Widget")]

/-- A freshly created ledger. -/
def emptyLedger : Ledger :=
  { data := [], totalSales := 0, totalRevenue := 0, syncedFiles := [],
    mappingSchema := none, lastUpdated := 0 }

/-- C7 (code evidence): the Sync Now button invokes finalizeProcess on the
manual mapping without checking that date, product and amount are all set.
With date and amount unset, normalization still runs and a record with
amount 0 is appended to the ledger — nothing blocks the confirmation. -/
theorem manual_confirm_not_blocked :
    (finalizeProcess (fun _ => none) 0 0 manualMappingUnset "report.xlsx"
        [pendingRow] emptyLedger).2 = 1 ∧
    ((finalizeProcess (fun _ => none) 0 0 manualMappingUnset "report.xlsx"
        [pendingRow] emptyLedger).1.data.map
      (fun s => (s.product, s.amount, s.quantity))) = [("Widget", 0, 1)] ∧
    (finalizeProcess (fun _ => none) 0 0 manualMappingUnset "report.xlsx"
        [pendingRow] emptyLedger).1.totalSales = 1 ∧
    (finalizeProcess (fun _ => none) 0 0 manualMappingUnset "report.xlsx"
        [pendingRow] emptyLedger).1.syncedFiles = ["report.xlsx"] := by
  with_unfolding_all decide

/-- Mapping used by the quantity counterexample. -/
def mpQty : Mapping := ⟨"", "P", "A", "", "Q"⟩

/-- A row whose quantity cell holds the negative integer -3 and whose
amount is positive, so the record is retained. -/
def rowNegativeQty : Row :=
  [("P", Cell.str "Gold Ring"), ("A", Cell.str "$5.00"), ("Q", Cell.str "-3")]

/-- C9 counterexample: a produced record can carry a non-positive
quantity — a quantity cell parsing to -3 passes `parseInt(x) || 1`
unchanged, so the batch is not all-positive. -/
theorem quantity_negative_cex :
    ((finalizeRecords (fun _ => none) 0 0 mpQty "f.xlsx" [rowNegativeQty]).all
      (fun s => decide (0 < s.quantity))) = false ∧
    (finalizeRecords (fun _ => none) 0 0 mpQty "f.xlsx" [rowNegativeQty]).map
      (fun s => s.quantity) = [-3] := by
  with_unfolding_all decide

/-- C9 (amended): the record quantity is never 0 — a missing or
unparseable quantity cell, and a cell parsing to 0, default to 1 — but a
cell parsing to a nonzero integer is used as-is, so a negative parse
yields a negative quantity. -/
theorem quantity_default_amended (dparse : String → Option ℤ) (tz now : ℤ)
    (mp : Mapping) (fileName : String) (idx : ℕ) (item : Row) :
    (mkRecord dparse tz now mp fileName idx item).quantity ≠ 0 ∧
    (jsParseInt (cellToString (rowLookup item mp.quantity)) = none →
      (mkRecord dparse tz now mp fileName idx item).quantity = 1) ∧
    (jsParseInt (cellToString (rowLookup item mp.quantity)) = some 0 →
      (mkRecord dparse tz now mp fileName idx item).quantity = 1) ∧
    (∀ k : ℤ, jsParseInt (cellToString (rowLookup item mp.quantity)) = some k → k ≠ 0 →
      (mkRecord dparse tz now mp fileName idx item).quantity = k) := by
  have hq : (mkRecord dparse tz now mp fileName idx item).quantity =
      quantityOf (rowLookup item mp.quantity) := rfl
  rw [hq]
  unfold quantityOf
  cases h : jsParseInt (cellToString (rowLookup item mp.quantity)) with
  | none =>
      exact ⟨by norm_num, fun _ => rfl, fun hc => by simp at hc, fun k hk => by simp at hk⟩
  | some k =>
      refine ⟨?_, fun hc => by simp at hc, ?_, ?_⟩
      · by_cases hk : k = 0
        · simp [hk]
        · simp [hk]
      · intro h0
        have hk0 : k = 0 := by simpa using h0
        simp [hk0]
      · intro k' hk' hne
        have hkk : k = k' := by simpa using hk'
        subst hkk
        simp [hne]

/-- Witness for quantity_default_amended: a quantity column mapped to a
non-numeric cell defaults to 1. -/
theorem quantity_default_amended_witness :
    jsParseInt (cellToString (rowLookup [("Q", Cell.str "abc")] mpQty.quantity)) = none ∧
    (mkRecord (fun _ => none) 0 0 mpQty "f.xlsx" 0 [("Q", Cell.str "abc")]).quantity = 1 :=
  ⟨by decide,
    (quantity_default_amended (fun _ => none) 0 0 mpQty "f.xlsx" 0
      [("Q", Cell.str "abc")]).2.1 (by decide)⟩

/-- One entry of the merged AI enrichment lookup; the fields mirror the
JSON the categorizer returns, `none` modelling a missing key. -/
structure EnrichEntry where
  category : Option String
  cleanName : Option String
deriving DecidableEq

/-- JS property lookup on the merged enrichment object. -/
def enrichLookup (lk : List (String × EnrichEntry)) (k : String) : Option EnrichEntry :=
  (List.find? (fun p => p.1 == k) lk).map (fun p => p.2)

/-- The per-sale enrichment application (finalizeProcess enrichment block):
`{ ...sale, category: enriched.category || sale.category }` for a matched
product, the sale untouched otherwise. The `||` keeps the original
category when the looked-up category is absent or the empty string. -/
def enrichOne (lk : List (String × EnrichEntry)) (sale : SaleRecord) : SaleRecord :=
  match enrichLookup lk sale.product with
  | some e =>
      { sale with category :=
          match e.category with
          | some c => if c = "" then sale.category else c
          | none => sale.category }
  | none => sale

/-- `parsedSales.map(sale => ...)` over the whole normalized batch. -/
def applyEnrichment (lk : List (String × EnrichEntry)) (sales : List SaleRecord) :
    List SaleRecord :=
  sales.map (enrichOne lk)

/-- An enrichment lookup whose entry for Ring carries an empty category. -/
def emptyCategoryLookup : List (String × EnrichEntry) :=
  [("Ring", { category := some "", cleanName := some "Ring" })]

/-- A normalized sale for the enrichment counterexample. -/
def ringSale : SaleRecord :=
  { id := "r1", date := "2024-01-01", product := "Ring", category := "General",
    amount := 5, quantity := 1 }

/-- C10 counterexample: for a product that is a key of the lookup, the
category is not always replaced by the looked-up category — an empty
looked-up category is falsy, so the original category survives. -/
theorem enrichment_empty_category_cex :
    enrichLookup emptyCategoryLookup ringSale.product =
      some { category := some "", cleanName := some "Ring" } ∧
    (applyEnrichment emptyCategoryLookup [ringSale]).map (fun s => s.category) ≠ [""] ∧
    (applyEnrichment emptyCategoryLookup [ringSale]).map (fun s => s.category) = ["General"] := by
  refine ⟨by decide, by decide, by decide⟩

/-- C10 (amended): enrichment only ever rewrites the category field — id,
date, product, amount and quantity always survive unchanged, a product
absent from the lookup is returned entirely unchanged, and a matched
product takes the looked-up category exactly when that category is present
and non-empty, keeping its original category otherwise. -/
theorem enrichment_frame_amended (lk : List (String × EnrichEntry)) (s : SaleRecord) :
    (applyEnrichment lk [s] = [enrichOne lk s]) ∧
    ((enrichOne lk s).id = s.id ∧ (enrichOne lk s).date = s.date ∧
     (enrichOne lk s).product = s.product ∧ (enrichOne lk s).amount = s.amount ∧
     (enrichOne lk s).quantity = s.quantity) ∧
    (enrichLookup lk s.product = none → enrichOne lk s = s) ∧
    (∀ e c, enrichLookup lk s.product = some e → e.category = some c → c ≠ "" →
      (enrichOne lk s).category = c) ∧
    (∀ e, enrichLookup lk s.product = some e →
      (e.category = none ∨ e.category = some "") →
      (enrichOne lk s).category = s.category) := by
  refine ⟨rfl, ?_, ?_, ?_, ?_⟩
  · unfold enrichOne
    cases h : enrichLookup lk s.product with
    | none => exact ⟨rfl, rfl, rfl, rfl, rfl⟩
    | some e => exact ⟨rfl, rfl, rfl, rfl, rfl⟩
  · intro h
    unfold enrichOne
    rw [h]
  · intro e c he hc hne
    unfold enrichOne
    simp only [he]
    simp only [hc]
    simp [hne]
  · intro e he hcat
    unfold enrichOne
    simp only [he]
    rcases hcat with h | h <;> simp [h]

/-- An enrichment entry carrying the non-empty category Rings. -/
def ringsEntry : EnrichEntry := { category := some "Rings", cleanName := none }

/-- An enrichment lookup mapping Ring to that entry. -/
def ringsLookup : List (String × EnrichEntry) := [("Ring", ringsEntry)]

/-- Witness for enrichment_frame_amended: a Ring matched with the
non-empty category Rings takes that category while every other field is
unchanged. -/
theorem enrichment_frame_amended_witness :
    enrichLookup ringsLookup ringSale.product = some ringsEntry ∧
    (enrichOne ringsLookup ringSale).category = "Rings" ∧
    (enrichOne ringsLookup ringSale).amount = ringSale.amount :=
  ⟨by decide,
    (enrichment_frame_amended ringsLookup ringSale).2.2.2.1 ringsEntry "Rings"
      (by decide) (by decide) (by decide),
    (enrichment_frame_amended ringsLookup ringSale).2.1.2.2.2.1⟩

/-- JS string `<` on UTF-16 code units (all strings compared here are
ASCII dates, where code units and code points agree). -/
def charListLt : List Char → List Char → Bool
  | _, [] => false
  | [], _ :: _ => true
  | a :: as, b :: bs =>
      if a.toNat < b.toNat then true
      else if b.toNat < a.toNat then false
      else charListLt as bs

/-- JS `a >= b` on strings: not (a < b). -/
def jsGe (a b : String) : Bool := !(charListLt a.toList b.toList)

/-- JS `a <= b` on strings: not (b < a). -/
def jsLeStr (a b : String) : Bool := !(charListLt b.toList a.toList)

/-- The custom branch of the filteredData memo (DashboardView.tsx): with
either bound unset the whole ledger is returned; otherwise keep records
with a non-empty date satisfying
`s.date >= startDateStr && s.date <= endDateStr`. -/
def filteredData (data : List SaleRecord) (customStart customEnd : String) :
    List SaleRecord :=
  if customStart = "" ∨ customEnd = "" then data
  else data.filter (fun s =>
    (!(s.date == "")) && jsGe s.date customStart && jsLeStr s.date customEnd)

/-- The empty string is below every non-empty string in code-unit order. -/
theorem charListLt_nil_of_ne (s : String) (h : s ≠ "") :
    charListLt [] s.toList = true := by
  obtain ⟨l⟩ := s
  cases l with
  | nil => exact absurd rfl h
  | cons c cs => rfl

/-- A demo record dated `d`. -/
def demoRec (d : String) : SaleRecord :=
  { id := d, date := d, product := "Widget", category := "General",
    amount := 10, quantity := 1 }

/-- Ten demo records dated 2024-01-01 through 2024-01-10. -/
def rangeDemo : List SaleRecord :=
  ["2024-01-01", "2024-01-02", "2024-01-03", "2024-01-04", "2024-01-05",
   "2024-01-06", "2024-01-07", "2024-01-08", "2024-01-09", "2024-01-10"].map demoRec

/-- C4: with both custom bounds set, the filter keeps exactly the records
whose date is lexicographically between the bounds, inclusive on both
ends; on a ledger dated 2024-01-01 through 2024-01-10 the range
2024-01-03..2024-01-05 returns exactly the 3 records of that window. -/
theorem custom_range_filter (data : List SaleRecord) (customStart customEnd : String)
    (r : SaleRecord) (hs : customStart ≠ "") (he : customEnd ≠ "") :
    (r ∈ filteredData data customStart customEnd ↔
       r ∈ data ∧ jsGe r.date customStart = true ∧ jsLeStr r.date customEnd = true) ∧
    filteredData rangeDemo "2024-01-03" "2024-01-05" =
      [demoRec "2024-01-03", demoRec "2024-01-04", demoRec "2024-01-05"] ∧
    (filteredData rangeDemo "2024-01-03" "2024-01-05").length = 3 := by
  refine ⟨?_, by decide, by decide⟩
  unfold filteredData
  rw [if_neg (by simp [hs, he])]
  rw [List.mem_filter]
  constructor
  · intro h
    refine ⟨h.1, ?_, ?_⟩
    · have h2 := h.2
      simp only [Bool.and_eq_true] at h2
      exact h2.1.2
    · have h2 := h.2
      simp only [Bool.and_eq_true] at h2
      exact h2.2
  · intro h
    refine ⟨h.1, ?_⟩
    have hne : r.date ≠ "" := by
      intro hd
      have hge := h.2.1
      rw [hd] at hge
      unfold jsGe at hge
      rw [show ("" : String).toList = [] from rfl,
        charListLt_nil_of_ne customStart hs] at hge
      simp at hge
    simp only [Bool.and_eq_true]
    exact ⟨⟨by simp [hne], h.2.1⟩, h.2.2⟩

/-- Witness for custom_range_filter on the demo ledger and the
2024-01-03..2024-01-05 window. -/
theorem custom_range_filter_witness :
    ("2024-01-03" : String) ≠ "" ∧ ("2024-01-05" : String) ≠ "" ∧
    (filteredData rangeDemo "2024-01-03" "2024-01-05").length = 3 :=
  ⟨by decide, by decide,
    (custom_range_filter rangeDemo "2024-01-03" "2024-01-05" (demoRec "2024-01-04")
      (by decide) (by decide)).2.2⟩

/-- JS `String.prototype.split` on a single separator character. -/
def splitOnChar (c : Char) (l : List Char) : List (List Char) :=
  l.foldr (fun x acc =>
    if x = c then [] :: acc
    else
      match acc with
      | h :: t => (x :: h) :: t
      | [] => [[x]]) [[]]

/-- Day number of the local midnight produced by `new Date(y, monthIndex, d)`:
two-digit years map to the 1900s, and out-of-range month indices and days
roll over exactly as the civil day arithmetic prescribes. -/
def dateFromPartsDays (y mIdx d : ℤ) : ℤ :=
  let yAdj := if 0 ≤ y ∧ y ≤ 99 then y + 1900 else y
  daysFromCivil (yAdj + mIdx / 12) (mIdx % 12 + 1) 1 + (d - 1)

/-- UTC timestamp of `new Date(y, monthIndex, d)` under local offset `tz`:
the wall clock reads local midnight of that civil day. -/
def jsMakeDateMs (tz y mIdx d : ℤ) : ℤ := dateFromPartsDays y mIdx d * 86400000 - tz

/-- `Date.prototype.getDay` under local offset `tz`: the weekday index
(0 = Sunday) of the local calendar day holding the timestamp; day 0 of the
epoch was a Thursday, hence the +4. -/
def jsGetDay (tz ms : ℤ) : ℤ := ((ms + tz) / 86400000 + 4) % 7

/-- The date-part extraction of the busiestDays memo (DashboardView.tsx):
reject a falsy or dash-free date string, split on the dash, map the parts
through `Number`, and require exactly three parts, all numeric (a NaN part
would make the constructed Date invalid and the record skipped). -/
def datePartsOf (s : String) : Option (ℤ × ℤ × ℤ) :=
  if s = "" then none
  else if ¬ (s.toList.contains '-') then none
  else
    match (splitOnChar '-' s.toList).map (fun p => jsNumber (String.mk p)) with
    | [some y, some m, some d] => some (jsTrunc y, jsTrunc m, jsTrunc d)
    | _ => none

/-- The weekday index `new Date(y, m - 1, d).getDay()` computed by the
busiestDays memo from the parts of a record's date string. -/
def dayIndexOf (tz : ℤ) (s : String) : Option ℤ :=
  (datePartsOf s).map (fun p => jsGetDay tz (jsMakeDateMs tz p.1 (p.2.1 - 1) p.2.2))

/-- The busiestDays aggregation (DashboardView.tsx): seven buckets of
(total quantity, total revenue), one per weekday, each parseable record
incrementing the bucket of its weekday index. -/
def busiestDays (tz : ℤ) (data : List SaleRecord) : List (ℤ × ℚ) :=
  data.foldl (fun acc s =>
    match dayIndexOf tz s.date with
    | some j =>
        if 0 ≤ j ∧ j < 7 then
          acc.set j.toNat
            ((acc.getD j.toNat (0, 0)).1 + s.quantity,
             (acc.getD j.toNat (0, 0)).2 + s.amount)
        else acc
    | none => acc) (List.replicate 7 (0, 0))

/-- Locally constructed dates cancel the timezone: the weekday read back
from `new Date(y, mIdx, d)` is a pure function of the civil day. -/
theorem jsGetDay_local (tz y mIdx d : ℤ) :
    jsGetDay tz (jsMakeDateMs tz y mIdx d) = (dateFromPartsDays y mIdx d + 4) % 7 := by
  unfold jsGetDay jsMakeDateMs
  have h : dateFromPartsDays y mIdx d * 86400000 - tz + tz =
      dateFromPartsDays y mIdx d * 86400000 := by ring
  rw [h, Int.mul_ediv_cancel _ (by norm_num)]

/-- The weekday index extracted from a date string never leaves 0..6. -/
theorem dayIndexOf_range (tz : ℤ) (s : String) (j : ℤ)
    (h : dayIndexOf tz s = some j) : 0 ≤ j ∧ j < 7 := by
  unfold dayIndexOf at h
  cases hd : datePartsOf s with
  | none => rw [hd] at h; simp at h
  | some p =>
      rw [hd] at h
      simp at h
      rw [← h]
      unfold jsGetDay
      exact ⟨Int.emod_nonneg _ (by norm_num), Int.emod_lt_of_pos _ (by norm_num)⟩

set_option maxRecDepth 8192 in
/-- The parts of the demo date string. -/
theorem datePartsOf_sunday : datePartsOf "2024-01-07" = some (2024, 1, 7) := by
  with_unfolding_all decide

/-- A record dated 2024-01-07, the Sunday of the concrete bucketing example. -/
def sundayRec (i p c : String) (a : ℚ) (q : ℤ) : SaleRecord :=
  { id := i, date := "2024-01-07", product := p, category := c,
    amount := a, quantity := q }

/-- C5: weekday bucketing is computed from the locally constructed date
parts, hence independent of the local timezone offset: any parsed date
string buckets at the civil weekday of its parts, every record increments
exactly the bucket of its weekday index, and a record dated 2024-01-07
(a Sunday) lands in bucket 0 and leaves bucket 1 untouched, for every
offset `tz`. -/
theorem weekday_local_bucketing (tz : ℤ) (i p c : String) (a : ℚ) (q : ℤ) :
    (∀ s y m d, datePartsOf s = some (y, m, d) →
        dayIndexOf tz s = some ((dateFromPartsDays y (m - 1) d + 4) % 7)) ∧
    (∀ s, dayIndexOf tz s = dayIndexOf 0 s) ∧
    dayIndexOf tz "2024-01-07" = some 0 ∧
    (∀ data s j, dayIndexOf tz s.date = some j →
        busiestDays tz (data ++ [s]) =
          (busiestDays tz data).set j.toNat
            (((busiestDays tz data).getD j.toNat (0, 0)).1 + s.quantity,
             ((busiestDays tz data).getD j.toNat (0, 0)).2 + s.amount)) ∧
    (busiestDays tz [sundayRec i p c a q]).getD 0 (0, 0) = (q, a) ∧
    (busiestDays tz [sundayRec i p c a q]).getD 1 (0, 0) = (0, 0) := by
  have hparts : ∀ s y m d, datePartsOf s = some (y, m, d) →
      dayIndexOf tz s = some ((dateFromPartsDays y (m - 1) d + 4) % 7) := by
    intro s y m d h
    unfold dayIndexOf
    rw [h]
    simp [jsGetDay_local]
  have hsun : dayIndexOf tz "2024-01-07" = some 0 := by
    rw [hparts "2024-01-07" 2024 1 7 datePartsOf_sunday]
    decide
  have hstep : ∀ data s j, dayIndexOf tz s.date = some j →
      busiestDays tz (data ++ [s]) =
        (busiestDays tz data).set j.toNat
          (((busiestDays tz data).getD j.toNat (0, 0)).1 + s.quantity,
           ((busiestDays tz data).getD j.toNat (0, 0)).2 + s.amount) := by
    intro data s j h
    have hr := dayIndexOf_range tz s.date j h
    unfold busiestDays
    rw [List.foldl_append]
    simp only [List.foldl_cons, List.foldl_nil, h]
    rw [if_pos hr]
  refine ⟨hparts, ?_, hsun, hstep, ?_, ?_⟩
  · intro s
    unfold dayIndexOf
    cases datePartsOf s with
    | none => rfl
    | some p => simp [jsGetDay_local]
  · have h2 := hstep [] (sundayRec i p c a q) 0 hsun
    simp only [List.nil_append] at h2
    rw [h2]
    simp [busiestDays, sundayRec, List.replicate]
  · have h2 := hstep [] (sundayRec i p c a q) 0 hsun
    simp only [List.nil_append] at h2
    rw [h2]
    simp [busiestDays, sundayRec, List.replicate]

/-- Witness for weekday_local_bucketing at offset 0: the Sunday record
increments bucket 0 of the empty aggregation. -/
theorem weekday_local_bucketing_witness :
    dayIndexOf 0 "2024-01-07" = some 0 ∧
    busiestDays 0 ([] ++ [sundayRec "r" "W" "G" 2 3]) =
      (busiestDays 0 []).set (0 : ℤ).toNat
        (((busiestDays 0 []).getD (0 : ℤ).toNat (0, 0)).1 + (sundayRec "r" "W" "G" 2 3).quantity,
         ((busiestDays 0 []).getD (0 : ℤ).toNat (0, 0)).2 + (sundayRec "r" "W" "G" 2 3).amount) := by
  have h := weekday_local_bucketing 0 "r" "W" "G" 2 3
  exact ⟨h.2.2.1, h.2.2.2.1 [] (sundayRec "r" "W" "G" 2 3) 0 h.2.2.1⟩

/-- One entry of the per-product aggregate of the stats memo
(DashboardView.tsx): name, total quantity, total revenue. -/
structure ProdStat where
  name : String
  count : ℤ
  revenue : ℚ
deriving DecidableEq

/-- One step of building the productMap: accumulate quantity and revenue
under the product name, with the empty name folded into Unknown; a new
name is appended in first-occurrence order (JS object keys). -/
def addSale (acc : List ProdStat) (s : SaleRecord) : List ProdStat :=
  let nm := if s.product = "" then "Unknown" else s.product
  if acc.any (fun p => p.name == nm) then
    acc.map (fun p =>
      if p.name == nm then
        { p with count := p.count + s.quantity, revenue := p.revenue + s.amount }
      else p)
  else acc ++ [{ name := nm, count := s.quantity, revenue := s.amount }]

/-- The productMap of the stats memo, in key-insertion order. -/
def productStats (data : List SaleRecord) : List ProdStat :=
  data.foldl addSale []

/-- Stable insertion for the descending by-count sort: an element moves
ahead only of strictly smaller counts, preserving the relative order of
equal counts as the JS stable sort does. -/
def insertByCount (x : ProdStat) : List ProdStat → List ProdStat
  | [] => [x]
  | y :: ys => if y.count < x.count then x :: y :: ys else y :: insertByCount x ys

/-- `sortedProducts`: the per-product aggregates sorted by count,
descending (the comparator `(a, b) => b.count - a.count`). -/
def sortedProducts (data : List SaleRecord) : List ProdStat :=
  (productStats data).foldr insertByCount []

/-- `totalRevenue` of the stats memo: reduce of amounts over the
filtered data. -/
def totalRevenueOf (data : List SaleRecord) : ℚ :=
  data.foldl (fun acc s => acc + s.amount) 0

/-- JS division with its non-finite outcomes (`0/0 = NaN`, `x/0 = ±Infinity`)
collapsed into `none`. -/
def jsDiv (a b : ℚ) : Option ℚ := if b = 0 then none else some (a / b)

/-- The Top Seller KPI expression of DashboardView.tsx:
outer `none` models the No data yet branch (no top product); an inner
`none` models a non-finite percentage from
`topProduct.revenue / totalRevenue * 100`. -/
def topSellerShare (data : List SaleRecord) : Option (Option ℚ) :=
  match sortedProducts data with
  | [] => none
  | p :: _ => some ((jsDiv p.revenue (totalRevenueOf data)).map (fun x => x * 100))

/-- A ledger record with a zero amount and a kept product name. -/
def widgetZeroRec : SaleRecord :=
  { id := "r1", date := "2024-01-01", product := "Widget",
    category := "General", amount := 0, quantity := 1 }

/-- C6 (code evidence): on a ledger holding one retained record with
amount 0 — a record the normalizer itself produces and keeps — the Top
Seller KPI exists but its percentage share divides by the zero total
revenue: the rendered value is the non-finite NaN, not 0%. -/
theorem topseller_share_unguarded :
    topSellerShare [widgetZeroRec] = some none ∧
    retain widgetZeroRec = true := by
  constructor
  · with_unfolding_all decide
  · with_unfolding_all decide
